import Mathlib

/-!
Verification of the filtering semantics of `nodeshot/core/base/managers.py`:
the `PublishedMixin`, `ACLMixin` and `ExtendedManagerMixin` classes.

A queryset is embedded as a list of records; Django attribute filters become
list filters.  Calls that can raise a Python exception return `Except`.
-/

namespace Nodeshot

/-- A persisted record, carrying the two attributes the mixins filter on:
`is_published` and `access_level`. An `id` field keeps distinct records
distinguishable. -/
structure Record where
  id : Nat
  access_level : Int
  is_published : Bool
deriving DecidableEq

/-- A membership group of a user, as used by `accessible_to`:
a numeric primary key `id` and a `name` looked up in `ACCESS_LEVELS`. -/
structure Group where
  id : Int
  name : String
deriving DecidableEq

/-- The actor on whose behalf `accessible_to` filters: the `is_superuser`
flag, the `is_authenticated` predicate of the external auth layer, and the
set of group memberships. -/
structure User where
  is_superuser : Bool
  is_authenticated : Bool
  groups : List Group
deriving DecidableEq

/-- Python exceptions the embedded code can raise. -/
inductive QueryError where
  /-- The Django query layer rejects `None` as the value of a non-exact
  lookup such as `access_level__lte` with
  `ValueError("Cannot use None as a query value")`. -/
  | valueErrorNoneQuery
  /-- Python `IndexError` from indexing `[0]` into an empty sequence. -/
  | indexError
deriving DecidableEq

/-- Modelled from the spec: `ACCESS_LEVELS` is imported from
`nodeshot.core.base.choices`, a module not present in the sources.  The spec
describes it as a fixed ordered mapping from tier name to integer rank,
ordered public < community < member < admin, and gives the example
enumeration \x7bpublic:0, community:10, member:20, admin:30\x7d. -/
def ACCESS_LEVELS : List (String × Int) :=
  [("public", 0), ("community", 10), ("member", 20), ("admin", 30)]

/-- Python dictionary `ACCESS_LEVELS.get(key)`: the value when the key is
present, `None` (here `none`) otherwise. -/
def ACCESS_LEVELS.get (key : String) : Option Int :=
  (ACCESS_LEVELS.find? (fun p => p.1 == key)).map (fun p => p.2)

/-- Django `self.filter(access_level__lte=value)` where `value` may be the
Python `None` (it is `ACCESS_LEVELS.get(...)` at two call sites).  For a
non-exact lookup Django raises `ValueError` on `None`; otherwise the result
keeps exactly the rows with `access_level <= value`. -/
def filter_access_level_lte (value : Option Int) (qs : List Record) :
    Except QueryError (List Record) :=
  match value with
  | none => .error .valueErrorNoneQuery
  | some v => .ok (qs.filter (fun r => r.access_level ≤ v))

/-- The `access_level` argument of `access_level_up_to` is either a Python
int or a tier-name string, discriminated by `isinstance(access_level, int)`. -/
inductive AccessParam where
  | int (n : Int)
  | str (s : String)
deriving DecidableEq

/-- The `value` computed by `ACLMixin.access_level_up_to`: the integer itself
when `isinstance(access_level, int)`, else `ACCESS_LEVELS.get(access_level)`. -/
def resolve_access_level : AccessParam → Option Int
  | .int n => some n
  | .str s => ACCESS_LEVELS.get s

/-- `ACLMixin.access_level_up_to`: resolve the argument to a numeric value
and return `self.filter(access_level__lte=value)`. -/
def access_level_up_to (qs : List Record) (access_level : AccessParam) :
    Except QueryError (List Record) :=
  filter_access_level_lte (resolve_access_level access_level) qs

/-- `PublishedMixin.published`: `self.filter(is_published=True)`. -/
def published (qs : List Record) : List Record :=
  qs.filter (fun r => r.is_published)

/-- One step of insertion into a list kept in descending `id` order. -/
def insertByIdDesc (g : Group) : List Group → List Group
  | [] => [g]
  | h :: t => if h.id ≤ g.id then g :: h :: t else h :: insertByIdDesc g t

/-- Django `groups.all().order_by('-id')`: the groups sorted by descending
primary key. -/
def order_by_id_desc (gs : List Group) : List Group :=
  gs.foldr insertByIdDesc []

/-- `ACLMixin.accessible_to` on an actor value.  (The source also accepts an
integer user id, resolved through the external `User` store before these
rules apply; that resolution is outside this embedding.)  Superusers get the
full collection (`get_query_set()` on a manager, `self` on a queryset — the
unfiltered input either way); authenticated users are filtered at the tier
named by the group of highest id, obtained as `order_by('-id')[0]`, which
raises `IndexError` when there are no groups; anonymous users are filtered
at `ACCESS_LEVELS.get('public')`. -/
def accessible_to (qs : List Record) (user : User) :
    Except QueryError (List Record) :=
  if user.is_superuser then
    .ok qs
  else if user.is_authenticated then
    match (order_by_id_desc user.groups).head? with
    | none => .error .indexError
    | some group => filter_access_level_lte (ACCESS_LEVELS.get group.name) qs
  else
    filter_access_level_lte (ACCESS_LEVELS.get ("public")) qs

/-- The attribute surface relevant to `ExtendedManagerMixin.__getattr__`:
the attributes of the manager instance, of its class, and of the queryset
returned by `get_query_set()`, each as a partial map from attribute name to
a value of some type. -/
structure ManagerFacade (α : Type) where
  instanceAttrs : String → Option α
  classAttrs : String → Option α
  querysetAttrs : String → Option α

/-- `ExtendedManagerMixin.__getattr__`: try `getattr(self.__class__, attr)`
and, on `AttributeError`, return `getattr(self.get_query_set(), attr)`. -/
def extended_manager_getattr (m : ManagerFacade α) (attr : String) : Option α :=
  match m.classAttrs attr with
  | some a => some a
  | none => m.querysetAttrs attr

/-- Python attribute access on the facade: normal lookup (instance
dictionary, then class), and only when that fails, `__getattr__`. -/
def facade_getattr (m : ManagerFacade α) (attr : String) : Option α :=
  match m.instanceAttrs attr with
  | some a => some a
  | none =>
    match m.classAttrs attr with
    | some a => some a
    | none => extended_manager_getattr m attr

/-! ### Auxiliary lemmas -/

lemma mem_insertByIdDesc (g a : Group) (l : List Group) :
    a ∈ insertByIdDesc g l ↔ a = g ∨ a ∈ l := by
  induction l with
  | nil => simp [insertByIdDesc]
  | cons h t ih =>
      by_cases hle : h.id ≤ g.id
      · simp [insertByIdDesc, hle]
      · simp [insertByIdDesc, hle, ih]
        tauto

lemma insertByIdDesc_ne_nil (g : Group) (l : List Group) :
    insertByIdDesc g l ≠ [] := by
  cases l with
  | nil => simp [insertByIdDesc]
  | cons h t =>
      by_cases hle : h.id ≤ g.id <;> simp [insertByIdDesc, hle]

lemma order_by_id_desc_ne_nil (gs : List Group) (h : gs ≠ []) :
    order_by_id_desc gs ≠ [] := by
  cases gs with
  | nil => exact absurd rfl h
  | cons g t => exact insertByIdDesc_ne_nil g (order_by_id_desc t)

lemma head_insertByIdDesc (g : Group) (l : List Group) (h : Group)
    (hh : (insertByIdDesc g l).head? = some h) :
    (h = g ∧ (l = [] ∨ ∃ b, l.head? = some b ∧ b.id ≤ g.id)) ∨
      (l.head? = some h ∧ g.id ≤ h.id) := by
  cases l with
  | nil =>
      simp [insertByIdDesc] at hh
      exact Or.inl ⟨hh.symm, Or.inl rfl⟩
  | cons b t =>
      by_cases hle : b.id ≤ g.id
      · simp [insertByIdDesc, hle] at hh
        exact Or.inl ⟨hh.symm, Or.inr ⟨b, rfl, hle⟩⟩
      · simp [insertByIdDesc, hle] at hh
        exact Or.inr ⟨by simp [hh], by rw [← hh]; omega⟩

/-- The head of the descending sort is a member of the input and has the
numerically greatest id. -/
lemma head_order_by_id_desc (gs : List Group) :
    ∀ g : Group, (order_by_id_desc gs).head? = some g →
      g ∈ gs ∧ ∀ a ∈ gs, a.id ≤ g.id := by
  induction gs with
  | nil => intro g hg; simp [order_by_id_desc] at hg
  | cons x t ih =>
      intro g hg
      have hx : (insertByIdDesc x (order_by_id_desc t)).head? = some g := hg
      rcases head_insertByIdDesc x (order_by_id_desc t) g hx with
        ⟨rfl, hcase⟩ | ⟨hhead, hle⟩
      · rcases hcase with hnil | ⟨b, hb, hble⟩
        · have ht : t = [] := by
            by_contra hne
            exact order_by_id_desc_ne_nil t hne hnil
          subst ht
          simp
        · have hbt := ih b hb
          refine ⟨by simp, ?_⟩
          intro a ha
          rcases List.mem_cons.mp ha with rfl | hat
          · exact le_refl _
          · exact le_trans (hbt.2 a hat) hble
      · have hgt := ih g hhead
        refine ⟨List.mem_cons_of_mem x hgt.1, ?_⟩
        intro a ha
        rcases List.mem_cons.mp ha with rfl | hat
        · exact hle
        · exact hgt.2 a hat

/-! ### Claims -/

/-- C1: for every collection and every rank `N` — an integer, or a tier name
that `ACCESS_LEVELS` resolves to `N` — `access_level_up_to` succeeds and its
output contains exactly the records with `access_level ≤ N`; the comparison
is inclusive. -/
theorem access_level_up_to_mem_iff (qs : List Record) (level : AccessParam)
    (N : Int) (h : resolve_access_level level = some N) :
    ∃ out, access_level_up_to qs level = .ok out ∧
      ∀ r : Record, r ∈ out ↔ r ∈ qs ∧ r.access_level ≤ N := by
  refine ⟨qs.filter (fun r => r.access_level ≤ N), ?_, ?_⟩
  · simp [access_level_up_to, h, filter_access_level_lte]
  · intro r
    simp [List.mem_filter]

/-- Witness for C1 at the tier name member and a two-record collection. -/
theorem access_level_up_to_mem_iff_witness :
    ∃ out,
      access_level_up_to
          [⟨0, 10, true⟩, ⟨1, 30, true⟩] (.str ("member")) = .ok out ∧
      ∀ r : Record, r ∈ out ↔
        r ∈ [(⟨0, 10, true⟩ : Record), ⟨1, 30, true⟩] ∧ r.access_level ≤ 20 :=
  access_level_up_to_mem_iff [⟨0, 10, true⟩, ⟨1, 30, true⟩]
    (.str ("member")) 20 (by decide)

/-- C2: `published` keeps exactly the records whose `is_published` flag is
true, and when no record matches it returns the empty collection (it cannot
fail: it is a total function). -/
theorem published_mem_iff (qs : List Record) :
    (∀ r : Record, r ∈ published qs ↔ r ∈ qs ∧ r.is_published = true) ∧
      ((∀ r ∈ qs, r.is_published = false) → published qs = []) := by
  constructor
  · intro r
    simp [published, List.mem_filter]
  · intro h
    apply List.filter_eq_nil_iff.mpr
    intro r hr
    simp [h r hr]

/-- Witness for C2: a collection with no published record filters to `[]`. -/
theorem published_mem_iff_witness :
    published [(⟨0, 0, false⟩ : Record), ⟨1, 10, false⟩] = [] :=
  (published_mem_iff [⟨0, 0, false⟩, ⟨1, 10, false⟩]).2 (by decide)

/-- C3: for every string absent from the `ACCESS_LEVELS` enumeration,
`access_level_up_to` fails: `ACCESS_LEVELS.get` yields the Python `None`,
which the query layer rejects (the concrete exception is the ValueError of
the ORM on a `None` lookup value, the failure the spec calls
`UnknownTierError`). -/
theorem access_level_up_to_unknown_tier (qs : List Record) (s : String)
    (h : ACCESS_LEVELS.get s = none) :
    access_level_up_to qs (.str s) = .error .valueErrorNoneQuery := by
  simp [access_level_up_to, resolve_access_level, h, filter_access_level_lte]

/-- Witness for C3 at the unknown tier name galactic-admin. -/
theorem access_level_up_to_unknown_tier_witness :
    access_level_up_to [(⟨0, 0, true⟩ : Record)] (.str ("galactic-admin")) =
      .error .valueErrorNoneQuery :=
  access_level_up_to_unknown_tier [⟨0, 0, true⟩] ("galactic-admin") (by decide)

/-- C4: for every collection and every actor whose `is_superuser` flag is
set, `accessible_to` returns the full unfiltered collection. -/
theorem accessible_to_superuser (qs : List Record) (u : User)
    (h : u.is_superuser = true) :
    accessible_to qs u = .ok qs := by
  simp [accessible_to, h]

/-- Witness for C4 with a concrete superuser. -/
theorem accessible_to_superuser_witness :
    accessible_to [(⟨0, 30, false⟩ : Record)] ⟨true, true, []⟩ =
      .ok [⟨0, 30, false⟩] :=
  accessible_to_superuser [⟨0, 30, false⟩] ⟨true, true, []⟩ (by decide)

/-- C5: for every authenticated non-superuser actor with at least one group,
`accessible_to` filters at the tier of the group with the numerically
highest id among the groups of the actor: the group `g` picked by
`order_by('-id')[0]` is a member of maximal id, and when its name resolves
to rank `v` the result is exactly the records with `access_level ≤ v`. -/
theorem accessible_to_authenticated (qs : List Record) (u : User) (g : Group)
    (v : Int) (hsu : u.is_superuser = false) (hauth : u.is_authenticated = true)
    (hg : (order_by_id_desc u.groups).head? = some g)
    (hv : ACCESS_LEVELS.get g.name = some v) :
    (g ∈ u.groups ∧ ∀ a ∈ u.groups, a.id ≤ g.id) ∧
      ∃ out, accessible_to qs u = .ok out ∧
        ∀ r : Record, r ∈ out ↔ r ∈ qs ∧ r.access_level ≤ v := by
  refine ⟨head_order_by_id_desc u.groups g hg, ?_⟩
  refine ⟨qs.filter (fun r => r.access_level ≤ v), ?_, ?_⟩
  · simp [accessible_to, hsu, hauth, hg, hv, filter_access_level_lte]
  · intro r
    simp [List.mem_filter]

/-- Witness for C5: of the groups (id 1, admin) and (id 2, community) the
actor is filtered at community, the tier of the higher-id group, not at the
higher-ranked admin tier. -/
theorem accessible_to_authenticated_witness :
    ((⟨2, "community"⟩ : Group) ∈
        [(⟨1, "admin"⟩ : Group), ⟨2, "community"⟩] ∧
      ∀ a ∈ [(⟨1, "admin"⟩ : Group), ⟨2, "community"⟩], a.id ≤ 2) ∧
      ∃ out,
        accessible_to [⟨0, 10, true⟩, ⟨1, 30, true⟩]
            ⟨false, true, [⟨1, "admin"⟩, ⟨2, "community"⟩]⟩ = .ok out ∧
        ∀ r : Record, r ∈ out ↔
          r ∈ [(⟨0, 10, true⟩ : Record), ⟨1, 30, true⟩] ∧
            r.access_level ≤ 10 :=
  accessible_to_authenticated [⟨0, 10, true⟩, ⟨1, 30, true⟩]
    ⟨false, true, [⟨1, "admin"⟩, ⟨2, "community"⟩]⟩ ⟨2, "community"⟩ 10
    (by decide) (by decide) (by decide) (by decide)

/-- C6: for every unauthenticated, non-superuser actor, `accessible_to`
coincides with `access_level_up_to` at the tier name public. -/
theorem accessible_to_anonymous (qs : List Record) (u : User)
    (hsu : u.is_superuser = false) (hauth : u.is_authenticated = false) :
    accessible_to qs u = access_level_up_to qs (.str ("public")) := by
  simp [accessible_to, hsu, hauth, access_level_up_to, resolve_access_level]

/-- Witness for C6 with a concrete anonymous actor. -/
theorem accessible_to_anonymous_witness :
    accessible_to [(⟨0, 0, true⟩ : Record), ⟨1, 10, true⟩] ⟨false, false, []⟩ =
      access_level_up_to [⟨0, 0, true⟩, ⟨1, 10, true⟩] (.str ("public")) :=
  accessible_to_anonymous [⟨0, 0, true⟩, ⟨1, 10, true⟩] ⟨false, false, []⟩
    (by decide) (by decide)

/-- C7: for every authenticated non-superuser actor with no groups,
`accessible_to` fails with the IndexError of `order_by('-id')[0]` on an
empty sequence; it neither returns a result nor falls back to public. -/
theorem accessible_to_no_groups (qs : List Record) (u : User)
    (hsu : u.is_superuser = false) (hauth : u.is_authenticated = true)
    (hg : u.groups = []) :
    accessible_to qs u = .error .indexError := by
  simp [accessible_to, hsu, hauth, hg, order_by_id_desc]

/-- Witness for C7 with a concrete groupless authenticated actor. -/
theorem accessible_to_no_groups_witness :
    accessible_to [(⟨0, 0, true⟩ : Record)] ⟨false, true, []⟩ =
      .error .indexError :=
  accessible_to_no_groups [⟨0, 0, true⟩] ⟨false, true, []⟩
    (by decide) (by decide) (by decide)

/-- C8: `published` and `access_level_up_to` commute: filtering the
published records at a level equals filtering at the level and then keeping
the published records, for every level (on unresolvable tier names both
orders produce the same error). -/
theorem published_access_level_up_to_comm (qs : List Record)
    (level : AccessParam) :
    access_level_up_to (published qs) level =
      Except.map published (access_level_up_to qs level) := by
  cases hr : resolve_access_level level with
  | none =>
      simp [access_level_up_to, hr, filter_access_level_lte, Except.map]
  | some v =>
      simp only [access_level_up_to, hr, filter_access_level_lte, Except.map]
      congr 1
      simp only [published, List.filter_filter]
      congr 1
      funext r
      exact Bool.and_comm _ _

/-- C9: an attribute name the manager facade does not itself recognize
(neither on the instance nor on the class) resolves, through
`__getattr__`, to exactly the corresponding attribute of the queryset
returned by `get_query_set()`. -/
theorem facade_getattr_delegates {α : Type} (m : ManagerFacade α)
    (attr : String) (h1 : m.instanceAttrs attr = none)
    (h2 : m.classAttrs attr = none) :
    facade_getattr m attr = m.querysetAttrs attr := by
  simp [facade_getattr, extended_manager_getattr, h1, h2]

/-- Witness for C9: a facade knowing only the attribute count delegates
the attribute filter to the queryset. -/
theorem facade_getattr_delegates_witness :
    facade_getattr
        (⟨fun _ => none,
          fun a => if a == "count" then some 1 else none,
          fun a => if a == "filter" then some 2 else none⟩ :
          ManagerFacade Nat) ("filter") = some 2 :=
  facade_getattr_delegates
    (⟨fun _ => none,
      fun a => if a == "count" then some 1 else none,
      fun a => if a == "filter" then some 2 else none⟩ : ManagerFacade Nat)
    ("filter") (by decide) (by decide)

/-- C10: an integer argument is used directly as the bound with no
validation against `ACCESS_LEVELS`: for every integer `n`, also negative or
between tiers, `access_level_up_to` succeeds and returns exactly the
records with `access_level ≤ n`. -/
theorem access_level_up_to_int_unvalidated (qs : List Record) (n : Int) :
    ∃ out, access_level_up_to qs (.int n) = .ok out ∧
      ∀ r : Record, r ∈ out ↔ r ∈ qs ∧ r.access_level ≤ n := by
  refine ⟨qs.filter (fun r => r.access_level ≤ n), rfl, ?_⟩
  intro r
  simp [List.mem_filter]

end Nodeshot
